import Mathlib

/-!
Verification of the batch object purger in
`src/s3_batch_object_cleaner.py` (functions `delete_objects_from_bucket`
and `process_all_buckets`) via a shallow embedding.

The storage service is modelled as data supplied to the embedded
functions: the paginator output is a list of pages (each page either a
`Page` record or a raised client error), and the delete API is a function
from a batch of keys to either a raised client error or a
`DeleteResponse`.  The embedded functions return, besides the `(found,
deleted)` pair the Python functions return, an instrumentation trace
recording the delete-batch calls actually issued and the per-key errors
logged, so that claims about the number and content of delete calls can
be stated.
-/

/-- A client error raised by the storage API (`botocore.exceptions.ClientError`);
only its presence matters, so it is modelled as its message string. -/
abbrev ClientErr := String

/-- One page yielded by `paginator.paginate(...)`.  `Contents` is `none`
when the Contents key is absent from the page dictionary (the source
checks this at line 59). -/
structure Page where
  Contents : Option (List String)
deriving Repr, DecidableEq

/-- One entry of the `Errors` list of a delete response
(fields `Key`, `Code`, `Message` read at lines 91-94). -/
structure DeleteErr where
  Key : String
  Code : String
  Message : String
deriving Repr, DecidableEq

/-- The response of `s3.delete_objects`: the Deleted list of the service
(read with a get defaulting to the empty list, line 87) and its optional
`Errors` list (line 90 checks whether the Errors key is present). -/
structure DeleteResponse where
  Deleted : List String
  Errors : Option (List DeleteErr)
deriving Repr, DecidableEq

/-- The per-bucket slice of the storage service: the pages the listing
paginator yields for this bucket (an `Except.error` element models the
listing call raising a `ClientError` when that page is requested), and
the behaviour of `s3.delete_objects` on a submitted batch of keys. -/
structure S3Env where
  pages : List (Except ClientErr Page)
  deleteObjects : List String → Except ClientErr DeleteResponse

/-- The substring test of Python, written s in k, on strings: some contiguous slice of
`k` of the length of `s` equals `s`. -/
def strContains (k s : String) : Bool :=
  (List.range (k.toList.length + 1)).any
    (fun i => ((k.toList.drop i).take s.toList.length) == s.toList)

/-- The filter condition of line 67:
`if all_symbols or (symbol and symbol in key)`.
`symbol` is `None` or a string; it is truthy when it is a nonempty
string. -/
def keyMatches (all_symbols : Bool) (symbol : Option String) (key : String) : Bool :=
  all_symbols ||
    (match symbol with
     | none => false
     | some s => (!(s == "")) && strContains key s)

/-- Fuel-indexed helper for the slicing loop; the fuel only bounds the
recursion depth and never runs out when it starts at the length of the
list. -/
def chunksFuel : Nat → List String → List (List String)
  | _, [] => []
  | 0, _ :: _ => []
  | fuel + 1, x :: xs => ((x :: xs).take 1000) :: chunksFuel fuel ((x :: xs).drop 1000)

/-- The slicing loop of lines 81-82:
`for i in range(0, len(l), 1000): batch = l[i:i+1000]`. -/
def chunks1000 (l : List String) : List (List String) :=
  chunksFuel l.length l

/-- Dropping 1000 keys from a non-empty list needs one less fuel. -/
theorem drop1000_len_le {x : String} {xs : List String} {f : Nat}
    (h : (x :: xs).length ≤ f + 1) : ((x :: xs).drop 1000).length ≤ f := by
  simp only [List.length_drop, List.length_cons] at *
  omega

/-- Dropping 1000 keys from a non-empty list shortens it to at most the
tail. -/
theorem drop1000_len_le_tail {x : String} {xs : List String} :
    ((x :: xs).drop 1000).length ≤ xs.length := by
  simp only [List.length_drop, List.length_cons]
  omega

/-- The fuel is irrelevant as soon as it covers the length of the
list. -/
theorem chunksFuel_congr : ∀ (f g : Nat) (l : List String),
    l.length ≤ f → l.length ≤ g → chunksFuel f l = chunksFuel g l := by
  intro f
  induction f with
  | zero =>
    intro g l hf _
    cases l with
    | nil => cases g <;> rfl
    | cons x xs => simp at hf
  | succ f ih =>
    intro g l hf hg
    cases l with
    | nil => cases g <;> rfl
    | cons x xs =>
      cases g with
      | zero => simp at hg
      | succ g =>
        simp only [chunksFuel]
        rw [ih g ((x :: xs).drop 1000) (drop1000_len_le hf) (drop1000_len_le hg)]

/-- The unfolding equation of the slicing loop: an empty list yields no
slice; otherwise the first 1000 keys form one slice and the rest is
sliced recursively. -/
theorem chunks1000_eq (l : List String) :
    chunks1000 l = if l = [] then [] else l.take 1000 :: chunks1000 (l.drop 1000) := by
  cases l with
  | nil => rfl
  | cons x xs =>
    simp only [chunks1000, List.length_cons, chunksFuel, if_neg (List.cons_ne_nil x xs)]
    rw [chunksFuel_congr xs.length ((x :: xs).drop 1000).length ((x :: xs).drop 1000)
      drop1000_len_le_tail le_rfl]

/-- Instrumented outcome of the delete loop of lines 81-94 on the
pending-delete list of one page: the running `total_deleted` increment, the batches
submitted to `s3.delete_objects`, the per-key errors logged from the
Errors lists of the responses, and whether a call raised a `ClientError`
(which aborts the whole `try` block). -/
structure DeleteLoopOut where
  deleted : Nat
  calls : List (List String)
  keyErrs : List DeleteErr
  raised : Bool
deriving Repr

/-- The delete loop of lines 81-94, one iteration per batch: submit the
batch; on a raised `ClientError` stop (the exception propagates to the
handler at line 100); otherwise add the length of the Deleted list of the
response to the deleted count and log each entry of `Errors` when present. -/
def deleteBatchesLoop (del : List String → Except ClientErr DeleteResponse) :
    List (List String) → DeleteLoopOut
  | [] => ⟨0, [], [], false⟩
  | b :: bs =>
    match del b with
    | .error _ => ⟨0, [b], [], true⟩
    | .ok r =>
      let rest := deleteBatchesLoop del bs
      ⟨r.Deleted.length + rest.deleted, b :: rest.calls,
        (r.Errors.getD []) ++ rest.keyErrs, rest.raised⟩

/-- Instrumented outcome of the page loop of lines 58-98: the running
`total_found` and `total_deleted`, every batch submitted to
`s3.delete_objects`, every per-key error logged, and whether a
`ClientError` was raised somewhere in the `try` block. -/
structure RunTrace where
  found : Nat
  deleted : Nat
  calls : List (List String)
  keyErrs : List DeleteErr
  raised : Bool
deriving Repr

/-- The page loop of lines 58-98 of `delete_objects_from_bucket`.
Per page: a raised listing error aborts the `try` block; a page without
`Contents` is skipped (`continue`, line 61); otherwise the matching keys
are collected into `objects_to_delete` and counted into `total_found`
(lines 64-69); an empty `objects_to_delete` skips to the next page
(line 74); when not in dry-run mode the matching keys are deleted in
batches of 1000 (lines 80-94), a raised delete error aborting the `try`
block; in dry-run mode nothing is deleted. -/
def pagesLoop (del : List String → Except ClientErr DeleteResponse)
    (symbol : Option String) (all_symbols dry_run : Bool) :
    List (Except ClientErr Page) → RunTrace
  | [] => ⟨0, 0, [], [], false⟩
  | .error _ :: _ => ⟨0, 0, [], [], true⟩
  | .ok pg :: rest =>
    match pg.Contents with
    | none => pagesLoop del symbol all_symbols dry_run rest
    | some objs =>
      let keys := objs.filter (keyMatches all_symbols symbol)
      if keys = [] ∨ dry_run then
        let r := pagesLoop del symbol all_symbols dry_run rest
        ⟨keys.length + r.found, r.deleted, r.calls, r.keyErrs, r.raised⟩
      else
        let d := deleteBatchesLoop del (chunks1000 keys)
        if d.raised then
          ⟨keys.length, d.deleted, d.calls, d.keyErrs, true⟩
        else
          let r := pagesLoop del symbol all_symbols dry_run rest
          ⟨keys.length + r.found, d.deleted + r.deleted, d.calls ++ r.calls,
            d.keyErrs ++ r.keyErrs, r.raised⟩

/-- The full instrumented run of `delete_objects_from_bucket` on the
environment of one bucket. -/
def runTrace (env : S3Env) (symbol : Option String)
    (all_symbols dry_run : Bool) : RunTrace :=
  pagesLoop env.deleteObjects symbol all_symbols dry_run env.pages

/-- The function `delete_objects_from_bucket` (lines 40-104): returns
`(total_found, total_deleted)`, except that a `ClientError` raised while
listing or deleting is caught at line 100 and `(0, 0)` is returned
(line 102). -/
def delete_objects_from_bucket (env : S3Env) (symbol : Option String)
    (all_symbols dry_run : Bool) : Nat × Nat :=
  let t := runTrace env symbol all_symbols dry_run
  if t.raised then (0, 0) else (t.found, t.deleted)

/-- A bucket task as submitted by `process_all_buckets`: the task either
raises an exception outside the `try` block of
`delete_objects_from_bucket` (modelled by `Except.error`, e.g. a failure
creating the session; caught by the handler at line 132) or returns the
result of `delete_objects_from_bucket` on the environment of the bucket. -/
def bucketTask (b : Except String S3Env) (symbol : Option String)
    (all_symbols dry_run : Bool) : Except String (Nat × Nat) :=
  match b with
  | .error e => .error e
  | .ok env => .ok (delete_objects_from_bucket env symbol all_symbols dry_run)

/-- The orchestrator `process_all_buckets` (lines 106-135): one task per configured
bucket; the loop at lines 126-133 adds the `(found, deleted)`
result of each task into the totals, and a task that raises contributes nothing (its
exception is caught and logged at lines 132-133).  The per-bucket
storage environments stand for the configured bucket list. -/
def process_all_buckets (buckets : List (Except String S3Env))
    (symbol : Option String) (all_symbols dry_run : Bool) : Nat × Nat :=
  (buckets.map (fun b => bucketTask b symbol all_symbols dry_run)).foldl
    (fun acc r =>
      match r with
      | .ok fd => (acc.1 + fd.1, acc.2 + fd.2)
      | .error _ => acc)
    (0, 0)

/-- The constant MAX_CONCURRENCY (line 20): the hard-coded worker-pool size. -/
def MAX_CONCURRENCY : Nat := 8

/-- The keys a listing element contributes: the Contents of a page when
present, nothing for an absent Contents key or a raised listing error. -/
def pageContents (p : Except ClientErr Page) : List String :=
  match p with
  | .error _ => []
  | .ok pg => pg.Contents.getD []

/-- The keys of a listing element that the filter of lines 63-69 selects. -/
def pageMatched (symbol : Option String) (all_symbols : Bool)
    (p : Except ClientErr Page) : List String :=
  (pageContents p).filter (keyMatches all_symbols symbol)

/-- Whether a listing element is a raised listing error. -/
def isListingErr (p : Except ClientErr Page) : Bool :=
  match p with
  | .error _ => true
  | .ok _ => false

/-- The number of keys a delete response confirms as deleted (0 when the
call raised). -/
def respDeleted (e : Except ClientErr DeleteResponse) : Nat :=
  match e with
  | .error _ => 0
  | .ok r => r.Deleted.length

/-- The per-key errors a delete response carries (none when the call
raised or the Errors key is absent). -/
def respErrs (e : Except ClientErr DeleteResponse) : List DeleteErr :=
  match e with
  | .error _ => []
  | .ok r => r.Errors.getD []

/-- A delete API that confirms every submitted key as deleted and
reports no per-key errors. -/
def delEcho : List String → Except ClientErr DeleteResponse :=
  fun b => Except.ok ⟨b, none⟩

/-- A delete API that confirms all but the first submitted key and
reports one per-key error. -/
def delPartialErr : List String → Except ClientErr DeleteResponse :=
  fun b => Except.ok ⟨b.drop 1, some [⟨"a", "InternalError", "delete failed"⟩]⟩

/-- Two listing pages of one matching key each. -/
def envTwoPages : S3Env :=
  ⟨[Except.ok ⟨some ["a"]⟩, Except.ok ⟨some ["b"]⟩], delEcho⟩

/-- One listing page of 2500 keys, all matching under the all-symbols
flag. -/
def envScenarioA : S3Env :=
  ⟨[Except.ok ⟨some (List.replicate 2500 "k")⟩], delEcho⟩

/-- A page of two matching keys followed by a raised listing error. -/
def envListingErr : S3Env :=
  ⟨[Except.ok ⟨some ["DPZ/1", "DPZ/2"]⟩, Except.error "AccessDenied"], delEcho⟩

/-- One page mixing matching and non-matching keys. -/
def envDryPair : S3Env :=
  ⟨[Except.ok ⟨some ["DPZ/1", "AAPL/1"]⟩], delEcho⟩

/-- One page of five keys, all matching under the all-symbols flag. -/
def envFive : S3Env :=
  ⟨[Except.ok ⟨some ["k1", "k2", "k3", "k4", "k5"]⟩], delEcho⟩

/-- A bucket whose first listing call raises. -/
def envThrowListing : S3Env :=
  ⟨[Except.error "AccessDenied"], delEcho⟩

/-- One page of three keys served by the partially failing delete API. -/
def envThreeKeys : S3Env :=
  ⟨[Except.ok ⟨some ["a", "b", "c"]⟩], delPartialErr⟩

/-- The synthetic listing of property P5. -/
def envSynthetic : S3Env :=
  ⟨[Except.ok ⟨some ["DPZ/1", "AAPL/1", "DPZ/2"]⟩], delEcho⟩

/-- A bucket whose single listing page has no Contents key: a bucket
with zero objects. -/
def envEmptyBucket : S3Env :=
  ⟨[Except.ok ⟨none⟩], delEcho⟩

/-- A Contents-free page followed by a page whose only key does not
contain the symbol DPZ. -/
def envNoMatch : S3Env :=
  ⟨[Except.ok ⟨none⟩, Except.ok ⟨some ["AAPL/1"]⟩], delEcho⟩

/-- The slicing loop produces no slice from an empty list. -/
theorem chunks1000_nil : chunks1000 [] = [] := rfl

/-- Concatenating the slices produced by the fuel-indexed slicing loop
restores the original list. -/
theorem chunksFuel_flatten : ∀ (f : Nat) (l : List String), l.length ≤ f →
    (chunksFuel f l).flatten = l := by
  intro f
  induction f with
  | zero =>
    intro l hf
    cases l with
    | nil => rfl
    | cons x xs => simp at hf
  | succ f ih =>
    intro l hf
    cases l with
    | nil => rfl
    | cons x xs =>
      simp only [chunksFuel, List.flatten_cons]
      rw [ih ((x :: xs).drop 1000) (drop1000_len_le hf)]
      exact List.take_append_drop _ _

/-- Concatenating the slices produced by the slicing loop restores the
original list. -/
theorem chunks1000_flatten (l : List String) : (chunks1000 l).flatten = l :=
  chunksFuel_flatten l.length l le_rfl

/-- The fuel-indexed slicing loop produces the ceiling of the length
over 1000 many slices. -/
theorem chunksFuel_length : ∀ (f : Nat) (l : List String), l.length ≤ f →
    (chunksFuel f l).length = (l.length + 999) / 1000 := by
  intro f
  induction f with
  | zero =>
    intro l hf
    cases l with
    | nil => rfl
    | cons x xs => simp at hf
  | succ f ih =>
    intro l hf
    cases l with
    | nil => rfl
    | cons x xs =>
      simp only [chunksFuel, List.length_cons]
      rw [ih ((x :: xs).drop 1000) (drop1000_len_le hf)]
      simp only [List.length_drop, List.length_cons]
      omega

/-- The slicing loop produces the ceiling of the length over 1000 many
slices. -/
theorem chunks1000_length (l : List String) :
    (chunks1000 l).length = (l.length + 999) / 1000 :=
  chunksFuel_length l.length l le_rfl

/-- Every slice produced by the fuel-indexed slicing loop has at most
1000 keys. -/
theorem chunksFuel_mem_le : ∀ (f : Nat) (l : List String) (c : List String),
    c ∈ chunksFuel f l → c.length ≤ 1000 := by
  intro f
  induction f with
  | zero =>
    intro l c hc
    cases l with
    | nil => simp [chunksFuel] at hc
    | cons x xs => simp [chunksFuel] at hc
  | succ f ih =>
    intro l c hc
    cases l with
    | nil => simp [chunksFuel] at hc
    | cons x xs =>
      simp only [chunksFuel, List.mem_cons] at hc
      rcases hc with rfl | hc
      · simpa using List.length_take_le 1000 (x :: xs)
      · exact ih _ _ hc

/-- Every slice produced by the slicing loop has at most 1000 keys. -/
theorem chunks1000_mem_le (l : List String) (c : List String)
    (hc : c ∈ chunks1000 l) : c.length ≤ 1000 :=
  chunksFuel_mem_le l.length l c hc

/-- When every delete call succeeds, the delete loop submits exactly the
given batches, raises nothing, counts exactly the confirmed keys of each
response, and logs exactly the per-key errors of each response. -/
theorem deleteBatchesLoop_ok
    (del : List String → Except ClientErr DeleteResponse)
    (bs : List (List String)) (hd : ∀ b, ∃ r, del b = Except.ok r) :
    deleteBatchesLoop del bs =
      ⟨(bs.map (fun b => respDeleted (del b))).sum, bs,
        (bs.map (fun b => respErrs (del b))).flatten, false⟩ := by
  induction bs with
  | nil => rfl
  | cons b bs ih =>
    obtain ⟨r, hr⟩ := hd b
    simp only [deleteBatchesLoop, hr, ih, List.map_cons, List.sum_cons,
      List.flatten_cons, respDeleted, respErrs]

/-- A dry run never submits a delete batch, deletes nothing and logs no
per-key error, whatever the listing holds. -/
theorem pagesLoop_dry_no_calls (del : List String → Except ClientErr DeleteResponse)
    (symbol : Option String) (a : Bool) (pages : List (Except ClientErr Page)) :
    (pagesLoop del symbol a true pages).calls = [] ∧
    (pagesLoop del symbol a true pages).deleted = 0 ∧
    (pagesLoop del symbol a true pages).keyErrs = [] := by
  induction pages with
  | nil => exact ⟨rfl, rfl, rfl⟩
  | cons p rest ih =>
    cases p with
    | error e => exact ⟨rfl, rfl, rfl⟩
    | ok pg =>
      cases hc : pg.Contents with
      | none => simpa [pagesLoop, hc] using ih
      | some objs => simp [pagesLoop, hc, ih.1, ih.2.1, ih.2.2]

/-- When the matching run of the page loop raises no client error, the
dry run over the same listing raises nothing either and computes the
same found count. -/
theorem pagesLoop_dry_eq (del : List String → Except ClientErr DeleteResponse)
    (symbol : Option String) (a : Bool) (pages : List (Except ClientErr Page))
    (h : (pagesLoop del symbol a false pages).raised = false) :
    pagesLoop del symbol a true pages =
      ⟨(pagesLoop del symbol a false pages).found, 0, [], [], false⟩ := by
  induction pages with
  | nil => rfl
  | cons p rest ih =>
    cases p with
    | error e => simp [pagesLoop] at h
    | ok pg =>
      cases hc : pg.Contents with
      | none =>
        simp only [pagesLoop, hc] at h ⊢
        exact ih h
      | some objs =>
        by_cases hk : objs.filter (keyMatches a symbol) = []
        · have hfr : (pagesLoop del symbol a false rest).raised = false := by
            have heq : (pagesLoop del symbol a false (Except.ok pg :: rest)).raised
                = (pagesLoop del symbol a false rest).raised := by
              simp only [pagesLoop, hc]
              rw [if_pos (Or.inl hk)]
            rw [← heq]
            exact h
          have hfound : (pagesLoop del symbol a false (Except.ok pg :: rest)).found
              = (objs.filter (keyMatches a symbol)).length
                + (pagesLoop del symbol a false rest).found := by
            simp only [pagesLoop, hc]
            rw [if_pos (Or.inl hk)]
          rw [hfound]
          simp only [pagesLoop, hc]
          rw [if_pos (Or.inl hk), ih hfr]
        · have hcond : ¬(objs.filter (keyMatches a symbol) = [] ∨ (false : Bool) = true) := by
            simp [hk]
          by_cases hd : (deleteBatchesLoop del
              (chunks1000 (objs.filter (keyMatches a symbol)))).raised = true
          · exfalso
            have hraised : (pagesLoop del symbol a false (Except.ok pg :: rest)).raised = true := by
              simp only [pagesLoop, hc]
              rw [if_neg hcond, if_pos hd]
            exact absurd (hraised.symm.trans h) (by simp)
          · have hfr : (pagesLoop del symbol a false rest).raised = false := by
              have heq : (pagesLoop del symbol a false (Except.ok pg :: rest)).raised
                  = (pagesLoop del symbol a false rest).raised := by
                simp only [pagesLoop, hc]
                rw [if_neg hcond, if_neg hd]
              rw [← heq]
              exact h
            have hfound : (pagesLoop del symbol a false (Except.ok pg :: rest)).found
                = (objs.filter (keyMatches a symbol)).length
                  + (pagesLoop del symbol a false rest).found := by
              simp only [pagesLoop, hc]
              rw [if_neg hcond, if_neg hd]
            rw [hfound]
            simp only [pagesLoop, hc]
            rw [if_pos (Or.inr trivial), ih hfr]

/-- A listing error anywhere in the pages makes the page loop raise. -/
theorem raised_of_listing_err (del : List String → Except ClientErr DeleteResponse)
    (symbol : Option String) (a d : Bool) (pages : List (Except ClientErr Page))
    (h : ∃ p ∈ pages, isListingErr p = true) :
    (pagesLoop del symbol a d pages).raised = true := by
  induction pages with
  | nil => simp at h
  | cons p rest ih =>
    cases p with
    | error e => rfl
    | ok pg =>
      have hrest : ∃ p ∈ rest, isListingErr p = true := by
        obtain ⟨q, hq, hqe⟩ := h
        rcases List.mem_cons.mp hq with rfl | hq
        · simp [isListingErr] at hqe
        · exact ⟨q, hq, hqe⟩
      cases hc : pg.Contents with
      | none => simpa [pagesLoop, hc] using ih hrest
      | some objs =>
        by_cases hk : (objs.filter (keyMatches a symbol) = [] ∨ d = true)
        · simp only [pagesLoop, hc]
          rw [if_pos (by simpa using hk)]
          exact ih hrest
        · simp only [pagesLoop, hc]
          rw [if_neg (by simpa using hk)]
          by_cases hd : (deleteBatchesLoop del (chunks1000 (objs.filter (keyMatches a symbol)))).raised
          · rw [if_pos hd]
          · rw [if_neg hd]
            exact ih hrest

/-- When no page contributes a matching key, the page loop finds
nothing, deletes nothing, submits no batch, and raises exactly when the
listing holds an error. -/
theorem pagesLoop_unmatched (del : List String → Except ClientErr DeleteResponse)
    (symbol : Option String) (a d : Bool) (pages : List (Except ClientErr Page))
    (h : ∀ p ∈ pages, (pageContents p).filter (keyMatches a symbol) = []) :
    pagesLoop del symbol a d pages = ⟨0, 0, [], [], pages.any isListingErr⟩ := by
  induction pages with
  | nil => rfl
  | cons p rest ih =>
    have hrest : ∀ p ∈ rest, (pageContents p).filter (keyMatches a symbol) = [] :=
      fun q hq => h q (List.mem_cons_of_mem _ hq)
    have hhead := h p (List.mem_cons_self _ _)
    cases p with
    | error e => simp [pagesLoop, isListingErr]
    | ok pg =>
      cases hc : pg.Contents with
      | none =>
        rw [List.any_cons]
        simpa [pagesLoop, hc, isListingErr] using ih hrest
      | some objs =>
        have hk : objs.filter (keyMatches a symbol) = [] := by
          simpa [pageContents, hc] using hhead
        rw [List.any_cons]
        simp only [pagesLoop, hc]
        rw [if_pos (Or.inl hk), ih hrest]
        simp [hk, isListingErr]

/-- When no listing call raises and every delete call succeeds, a
matching (non-dry) run of the page loop: raises nothing; submits, page
by page, exactly the 1000-key slices of the matching keys of each page;
counts as found every matching key of every page; counts as deleted
exactly the keys the responses confirm; and logs exactly the per-key
errors the responses carry. -/
theorem pagesLoop_run_ok (del : List String → Except ClientErr DeleteResponse)
    (symbol : Option String) (a : Bool) (pages : List (Except ClientErr Page))
    (hp : ∀ p ∈ pages, isListingErr p = false)
    (hd : ∀ b, ∃ r, del b = Except.ok r) :
    pagesLoop del symbol a false pages =
      ⟨((pages.map (pageMatched symbol a)).map List.length).sum,
       (((pages.map (fun p => chunks1000 (pageMatched symbol a p))).flatten).map
          (fun b => respDeleted (del b))).sum,
       (pages.map (fun p => chunks1000 (pageMatched symbol a p))).flatten,
       (((pages.map (fun p => chunks1000 (pageMatched symbol a p))).flatten).map
          (fun b => respErrs (del b))).flatten,
       false⟩ := by
  induction pages with
  | nil => rfl
  | cons p rest ih =>
    have hrest : ∀ p ∈ rest, isListingErr p = false :=
      fun q hq => hp q (List.mem_cons_of_mem _ hq)
    have ihr := ih hrest
    cases p with
    | error e =>
      have := hp (Except.error e) (List.mem_cons_self _ _)
      simp [isListingErr] at this
    | ok pg =>
      cases hc : pg.Contents with
      | none =>
        have hm : pageMatched symbol a (Except.ok pg) = [] := by
          simp [pageMatched, pageContents, hc]
        simp only [pagesLoop, hc, List.map_cons, hm, List.length_nil,
          List.sum_cons, List.flatten_cons, ihr]
        simp [chunks1000_nil]
      | some objs =>
        have hm : pageMatched symbol a (Except.ok pg)
            = objs.filter (keyMatches a symbol) := by
          simp [pageMatched, pageContents, hc]
        by_cases hk : objs.filter (keyMatches a symbol) = []
        · have hch : chunks1000 (objs.filter (keyMatches a symbol)) = [] := by
            rw [hk]
            exact chunks1000_nil
          simp only [pagesLoop, hc]
          rw [if_pos (Or.inl hk), ihr]
          simp only [List.map_cons, hm, hk, hch, List.length_nil, List.sum_cons,
            List.flatten_cons, List.nil_append, List.map_nil]
          simp [chunks1000_nil]
        · have hdb := deleteBatchesLoop_ok del
            (chunks1000 (objs.filter (keyMatches a symbol))) hd
          simp only [pagesLoop, hc]
          rw [if_neg (by simp [hk]), hdb]
          simp only [List.map_cons, hm, List.sum_cons, List.flatten_cons, ihr]
          simp [List.map_append, List.sum_append, List.flatten_append]

/-- The found count a collected task contributes to the totals: the
first component of its result, or 0 when the task raised. -/
def taskFound (b : Except String S3Env) (symbol : Option String)
    (all_symbols dry_run : Bool) : Nat :=
  match bucketTask b symbol all_symbols dry_run with
  | .ok fd => fd.1
  | .error _ => 0

/-- The deleted count a collected task contributes to the totals: the
second component of its result, or 0 when the task raised. -/
def taskDeleted (b : Except String S3Env) (symbol : Option String)
    (all_symbols dry_run : Bool) : Nat :=
  match bucketTask b symbol all_symbols dry_run with
  | .ok fd => fd.2
  | .error _ => 0

/-- The collection loop of lines 126-133, started from any partial
totals, adds exactly the contribution of every task. -/
theorem collectLoop_eq_sum (l : List (Except String (Nat × Nat))) :
    ∀ x y : Nat,
      l.foldl
        (fun acc r =>
          match r with
          | .ok fd => (acc.1 + fd.1, acc.2 + fd.2)
          | .error _ => acc)
        (x, y) =
      (x + (l.map (fun r => match r with | .ok fd => fd.1 | .error _ => 0)).sum,
       y + (l.map (fun r => match r with | .ok fd => fd.2 | .error _ => 0)).sum) := by
  induction l with
  | nil => intro x y; simp
  | cons r l ih =>
    intro x y
    cases r with
    | ok fd =>
      simp only [List.foldl_cons, List.map_cons, List.sum_cons, ih]
      simp [Nat.add_assoc]
    | error e =>
      simp only [List.foldl_cons, List.map_cons, List.sum_cons, ih]
      simp

/-- The totals of the orchestrator are the sums of the per-task
contributions, a task that raised contributing 0 to each. -/
theorem process_all_buckets_eq_sum (buckets : List (Except String S3Env))
    (symbol : Option String) (all_symbols dry_run : Bool) :
    process_all_buckets buckets symbol all_symbols dry_run =
      ((buckets.map (fun b => taskFound b symbol all_symbols dry_run)).sum,
       (buckets.map (fun b => taskDeleted b symbol all_symbols dry_run)).sum) := by
  unfold process_all_buckets
  rw [collectLoop_eq_sum]
  simp only [List.map_map, Nat.zero_add]
  rfl

/-- Concatenating every slice of every page restores the concatenation
of the pages. -/
theorem flatten_map_chunks (L : List (List String)) :
    ((L.map chunks1000).flatten).flatten = L.flatten := by
  induction L with
  | nil => rfl
  | cons x xs ih =>
    simp only [List.map_cons, List.flatten_cons, List.flatten_append,
      chunks1000_flatten, ih]

/-- C1 is false as stated: the code slices the pending-delete list page
by page (lines 81-82 run once per listing page), so two pages of one
matching key each yield two delete-batch calls although
ceil(2 / 1000) = 1. -/
theorem c1_chunking_counterexample :
    (runTrace envTwoPages none true false).found = 2 ∧
    (runTrace envTwoPages none true false).calls.length = 2 ∧
    (runTrace envTwoPages none true false).calls.length ≠
      (((runTrace envTwoPages none true false).found + 999) / 1000) := by
  refine ⟨by decide, by decide, by decide⟩

/-- C1 (amended): in a run with no listing error and no failing delete
call, the number of delete-batch calls equals the sum over listing pages
of ceil(page matches / 1000) (so ceil(N / 1000) holds per page, not per
bucket), each call carries at most 1000 keys, the keys submitted across
all calls are exactly the matched keys in listing order with no
duplicates and no omissions, and found counts exactly the matches; a
single page of 2500 matching keys thus yields exactly 3 calls of sizes
1000, 1000, 500. -/
theorem c1_chunking_amended (env : S3Env) (symbol : Option String) (a : Bool)
    (hp : ∀ p ∈ env.pages, isListingErr p = false)
    (hd : ∀ b, ∃ r, env.deleteObjects b = Except.ok r) :
    (runTrace env symbol a false).calls.length =
      (env.pages.map (fun p => ((pageMatched symbol a p).length + 999) / 1000)).sum ∧
    (∀ c ∈ (runTrace env symbol a false).calls, c.length ≤ 1000) ∧
    (runTrace env symbol a false).calls.flatten =
      (env.pages.map (pageMatched symbol a)).flatten ∧
    (runTrace env symbol a false).found =
      ((env.pages.map (pageMatched symbol a)).map List.length).sum := by
  have h := pagesLoop_run_ok env.deleteObjects symbol a env.pages hp hd
  unfold runTrace
  rw [h]
  refine ⟨?_, ?_, ?_, rfl⟩
  · rw [List.length_flatten, List.map_map]
    refine congrArg List.sum (List.map_congr_left fun p _ => ?_)
    exact chunks1000_length _
  · intro c hc
    rw [List.mem_flatten] at hc
    obtain ⟨cs, hcs, hcmem⟩ := hc
    rw [List.mem_map] at hcs
    obtain ⟨p, _, rfl⟩ := hcs
    exact chunks1000_mem_le _ _ hcmem
  · have hmm : env.pages.map (fun p => chunks1000 (pageMatched symbol a p))
        = (env.pages.map (pageMatched symbol a)).map chunks1000 := by
      rw [List.map_map]
      rfl
    rw [hmm, flatten_map_chunks]

/-- Witness for the amended C1 at Scenario A: a single page of 2500
matching keys, no errors, yields 3 delete-batch calls of sizes 1000,
1000, 500, and the run reports 2500 found and 2500 deleted. -/
theorem c1_chunking_amended_witness :
    (runTrace envScenarioA none true false).calls.length =
      (envScenarioA.pages.map
        (fun p => ((pageMatched none true p).length + 999) / 1000)).sum ∧
    (runTrace envScenarioA none true false).calls.map List.length
      = [1000, 1000, 500] ∧
    delete_objects_from_bucket envScenarioA none true false = (2500, 2500) := by
  have hp : ∀ p ∈ envScenarioA.pages, isListingErr p = false := by
    intro p hmem
    simp only [envScenarioA, List.mem_singleton] at hmem
    subst hmem
    rfl
  have hd : ∀ b, ∃ r, envScenarioA.deleteObjects b = Except.ok r :=
    fun b => ⟨⟨b, none⟩, rfl⟩
  have hrun := pagesLoop_run_ok envScenarioA.deleteObjects none true
    envScenarioA.pages hp hd
  have hmatched : pageMatched none true (Except.ok ⟨some (List.replicate 2500 "k")⟩)
      = List.replicate 2500 "k" := by
    simp only [pageMatched, pageContents, Option.getD_some]
    exact List.filter_eq_self.mpr fun a _ => rfl
  have hchunks : chunks1000 (List.replicate 2500 "k")
      = [List.replicate 1000 "k", List.replicate 1000 "k", List.replicate 500 "k"] := by
    rw [chunks1000_eq, if_neg (by simp), List.take_replicate, List.drop_replicate]
    norm_num
    rw [chunks1000_eq, if_neg (by simp), List.take_replicate, List.drop_replicate]
    norm_num
    rw [chunks1000_eq, if_neg (by simp), List.take_replicate, List.drop_replicate]
    norm_num
    exact chunks1000_nil
  have hcalls : (runTrace envScenarioA none true false).calls
      = [List.replicate 1000 "k", List.replicate 1000 "k", List.replicate 500 "k"] := by
    unfold runTrace
    rw [hrun]
    simp only [envScenarioA, List.map_cons, List.map_nil, List.flatten_cons,
      List.flatten_nil, List.append_nil, hmatched, hchunks]
  have hraised : (runTrace envScenarioA none true false).raised = false := by
    unfold runTrace
    rw [hrun]
  have hfound : (runTrace envScenarioA none true false).found = 2500 := by
    unfold runTrace
    rw [hrun]
    simp only [envScenarioA, List.map_cons, List.map_nil, hmatched,
      List.length_replicate, List.sum_cons, List.sum_nil, Nat.add_zero]
  have hdeleted : (runTrace envScenarioA none true false).deleted = 2500 := by
    unfold runTrace
    rw [hrun]
    simp only [envScenarioA, List.map_cons, List.map_nil, List.flatten_cons,
      List.flatten_nil, List.append_nil, hmatched, hchunks]
    simp only [envScenarioA, delEcho, respDeleted, List.map_cons, List.map_nil,
      List.length_replicate, List.sum_cons, List.sum_nil]
    norm_num
  refine ⟨(c1_chunking_amended envScenarioA none true hp hd).1, ?_, ?_⟩
  · rw [hcalls]
    simp only [List.map_cons, List.map_nil, List.length_replicate]
  · simp only [delete_objects_from_bucket, hraised, Bool.false_eq_true, if_false,
      hfound, hdeleted]

/-- C2: a client error raised while listing or deleting makes
`delete_objects_from_bucket` return (0, 0) for that bucket without
propagating (the embedded function is total): any listing error in the
pages, or any raise recorded in the run trace, yields (0, 0). -/
theorem c2_bucket_error_returns_zero (env : S3Env) (symbol : Option String)
    (a d : Bool)
    (h : (∃ p ∈ env.pages, isListingErr p = true) ∨
      (runTrace env symbol a d).raised = true) :
    delete_objects_from_bucket env symbol a d = (0, 0) := by
  have hr : (runTrace env symbol a d).raised = true := by
    rcases h with h | h
    · exact raised_of_listing_err _ _ _ _ _ h
    · exact h
  simp [delete_objects_from_bucket, hr]

/-- Witness for C2: a page of two matching keys followed by a listing
error; the trace shows 2 keys found and 2 deleted before the error, yet
the function returns (0, 0). -/
theorem c2_bucket_error_returns_zero_witness :
    (runTrace envListingErr (some "DPZ") false false).found = 2 ∧
    (runTrace envListingErr (some "DPZ") false false).deleted = 2 ∧
    delete_objects_from_bucket envListingErr (some "DPZ") false false = (0, 0) := by
  refine ⟨by decide, by decide, ?_⟩
  exact c2_bucket_error_returns_zero envListingErr (some "DPZ") false false
    (Or.inl ⟨Except.error "AccessDenied",
      List.mem_cons_of_mem _ (List.mem_cons_self _ _), rfl⟩)

/-- C3: a dry run issues no delete-batch call at all, its returned
deleted count is 0, and whenever the matching (non-dry) run over the
same listing raises no client error, both runs return the same found
count. -/
theorem c3_dry_run_no_op (env : S3Env) (symbol : Option String) (a : Bool) :
    (runTrace env symbol a true).calls = [] ∧
    (delete_objects_from_bucket env symbol a true).2 = 0 ∧
    ((runTrace env symbol a false).raised = false →
      (delete_objects_from_bucket env symbol a true).1 =
        (delete_objects_from_bucket env symbol a false).1) := by
  obtain ⟨hcalls, hdel, _⟩ :=
    pagesLoop_dry_no_calls env.deleteObjects symbol a env.pages
  refine ⟨hcalls, ?_, ?_⟩
  · by_cases hr : (runTrace env symbol a true).raised
    · simp [delete_objects_from_bucket, hr]
    · simp only [delete_objects_from_bucket, Bool.not_eq_true] at hr ⊢
      rw [hr]
      simpa using hdel
  · intro h
    have h2 : (pagesLoop env.deleteObjects symbol a false env.pages).raised = false := h
    have hd := pagesLoop_dry_eq env.deleteObjects symbol a env.pages h
    simp [delete_objects_from_bucket, runTrace, hd, h2]

/-- Witness for C3: on a page holding one matching and one non-matching
key, the dry run issues no call and returns (1, 0), and its found count
agrees with the matching run. -/
theorem c3_dry_run_no_op_witness :
    (runTrace envDryPair (some "DPZ") false true).calls = [] ∧
    (delete_objects_from_bucket envDryPair (some "DPZ") false true).2 = 0 ∧
    delete_objects_from_bucket envDryPair (some "DPZ") false true = (1, 0) ∧
    (delete_objects_from_bucket envDryPair (some "DPZ") false true).1 =
      (delete_objects_from_bucket envDryPair (some "DPZ") false false).1 := by
  have h := c3_dry_run_no_op envDryPair (some "DPZ") false
  exact ⟨h.1, h.2.1, by decide, h.2.2 (by decide)⟩

/-- C4: the orchestrator is a total function producing a summary for
every input: the totals are the sums of one contribution per submitted
bucket, a task that raises contributes (0, 0), and Scenario C holds:
with one bucket that throws on listing and one bucket of five matches,
the non-dry-run summary is (5, 5). -/
theorem c4_summary_always_produced (buckets : List (Except String S3Env))
    (symbol : Option String) (a d : Bool) (e : String) :
    process_all_buckets buckets symbol a d =
      ((buckets.map (fun b => taskFound b symbol a d)).sum,
       (buckets.map (fun b => taskDeleted b symbol a d)).sum) ∧
    taskFound (Except.error e) symbol a d = 0 ∧
    taskDeleted (Except.error e) symbol a d = 0 ∧
    process_all_buckets [Except.ok envThrowListing, Except.ok envFive]
      none true false = (5, 5) := by
  exact ⟨process_all_buckets_eq_sum buckets symbol a d, rfl, rfl, by decide⟩

/-- C5: in a run where every delete call succeeds at the request level,
nothing is raised, the deleted count is exactly the sum over the issued
calls of the number of keys the service confirms as deleted, and the
per-key errors logged are exactly the Errors entries of the responses
of the issued calls. -/
theorem c5_per_key_errors (env : S3Env) (symbol : Option String) (a : Bool)
    (hp : ∀ p ∈ env.pages, isListingErr p = false)
    (hd : ∀ b, ∃ r, env.deleteObjects b = Except.ok r) :
    (runTrace env symbol a false).raised = false ∧
    (runTrace env symbol a false).deleted =
      ((runTrace env symbol a false).calls.map
        (fun b => respDeleted (env.deleteObjects b))).sum ∧
    (runTrace env symbol a false).keyErrs =
      ((runTrace env symbol a false).calls.map
        (fun b => respErrs (env.deleteObjects b))).flatten := by
  have h := pagesLoop_run_ok env.deleteObjects symbol a env.pages hp hd
  unfold runTrace
  rw [h]
  exact ⟨rfl, rfl, rfl⟩

/-- Witness for C5: three matching keys in one batch; the service
confirms two and reports one per-key error; the run returns found 3,
deleted 2, and logs exactly that error. -/
theorem c5_per_key_errors_witness :
    delete_objects_from_bucket envThreeKeys none true false = (3, 2) ∧
    (runTrace envThreeKeys none true false).keyErrs
      = [⟨"a", "InternalError", "delete failed"⟩] ∧
    (runTrace envThreeKeys none true false).deleted =
      ((runTrace envThreeKeys none true false).calls.map
        (fun b => respDeleted (envThreeKeys.deleteObjects b))).sum := by
  refine ⟨by decide, by decide, (c5_per_key_errors envThreeKeys none true ?_ ?_).2.1⟩
  · decide
  · intro b
    exact ⟨_, rfl⟩

/-- C6: the totals of the orchestrator equal the sums of the per-bucket
contributions and are invariant under any permutation of the collection
order of the bucket results. -/
theorem c6_aggregation_commutes (l1 l2 : List (Except String S3Env))
    (symbol : Option String) (a d : Bool) (hperm : l1.Perm l2) :
    process_all_buckets l1 symbol a d =
      ((l1.map (fun b => taskFound b symbol a d)).sum,
       (l1.map (fun b => taskDeleted b symbol a d)).sum) ∧
    process_all_buckets l1 symbol a d = process_all_buckets l2 symbol a d := by
  refine ⟨process_all_buckets_eq_sum l1 symbol a d, ?_⟩
  rw [process_all_buckets_eq_sum l1 symbol a d,
    process_all_buckets_eq_sum l2 symbol a d,
    (hperm.map (fun b => taskFound b symbol a d)).sum_eq,
    (hperm.map (fun b => taskDeleted b symbol a d)).sum_eq]

/-- Witness for C6: swapping two concrete buckets leaves the summary
unchanged at (7, 7). -/
theorem c6_aggregation_commutes_witness :
    process_all_buckets [Except.ok envFive, Except.ok envDryPair] none true false
      = process_all_buckets [Except.ok envDryPair, Except.ok envFive] none true false ∧
    process_all_buckets [Except.ok envFive, Except.ok envDryPair] none true false
      = (7, 7) := by
  refine ⟨(c6_aggregation_commutes [Except.ok envFive, Except.ok envDryPair]
    [Except.ok envDryPair, Except.ok envFive] none true false
    (List.Perm.swap (Except.ok envDryPair) (Except.ok envFive) [])).2, by decide⟩

/-- C7: a page without Contents is skipped without ending the page loop,
a page whose keys all fail the predicate is likewise skipped, and a
bucket whose listing raises no error and yields no matching key (zero
objects, or a predicate matching nothing) returns (0, 0) with zero
delete-batch calls. -/
theorem c7_empty_page_continues (del : List String → Except ClientErr DeleteResponse)
    (symbol : Option String) (a d : Bool) (rest : List (Except ClientErr Page))
    (objs : List String) (env : S3Env)
    (hobjs : objs.filter (keyMatches a symbol) = [])
    (hall : ∀ p ∈ env.pages, (pageContents p).filter (keyMatches a symbol) = [])
    (herr : ∀ p ∈ env.pages, isListingErr p = false) :
    pagesLoop del symbol a d (Except.ok ⟨none⟩ :: rest) = pagesLoop del symbol a d rest ∧
    pagesLoop del symbol a d (Except.ok ⟨some objs⟩ :: rest) = pagesLoop del symbol a d rest ∧
    delete_objects_from_bucket env symbol a d = (0, 0) ∧
    (runTrace env symbol a d).calls = [] := by
  have hu := pagesLoop_unmatched env.deleteObjects symbol a d env.pages hall
  have hany : env.pages.any isListingErr = false := by
    rw [List.any_eq_false]
    intro p hp
    simp [herr p hp]
  refine ⟨rfl, ?_, ?_, ?_⟩
  · simp only [pagesLoop]
    rw [if_pos (Or.inl hobjs)]
    simp [hobjs]
  · simp [delete_objects_from_bucket, runTrace, hu, hany]
  · simp [runTrace, hu]

/-- Witness for C7: a bucket whose single page has no Contents key (zero
objects) and a bucket whose pages hold no key containing DPZ both return
(0, 0) with zero delete-batch calls. -/
theorem c7_empty_page_continues_witness :
    delete_objects_from_bucket envEmptyBucket (some "DPZ") false false = (0, 0) ∧
    (runTrace envEmptyBucket (some "DPZ") false false).calls = [] ∧
    delete_objects_from_bucket envNoMatch (some "DPZ") false false = (0, 0) ∧
    (runTrace envNoMatch (some "DPZ") false false).calls = [] := by
  have h1 := c7_empty_page_continues delEcho (some "DPZ") false false [] []
    envEmptyBucket (by decide) (by decide) (by decide)
  have h2 := c7_empty_page_continues delEcho (some "DPZ") false false [] []
    envNoMatch (by decide) (by decide) (by decide)
  exact ⟨h1.2.2.1, h1.2.2.2, h2.2.2.1, h2.2.2.2⟩

/-- The embedded substring test agrees with the standard
characterization: the pattern occurs in the key iff the key splits as
prefix, pattern, suffix. -/
theorem strContains_iff (k s : String) :
    strContains k s = true ↔ ∃ u v : List Char, u ++ s.toList ++ v = k.toList := by
  unfold strContains
  rw [List.any_eq_true]
  constructor
  · rintro ⟨i, _, heq⟩
    rw [beq_iff_eq] at heq
    refine ⟨k.toList.take i, (k.toList.drop i).drop s.toList.length, ?_⟩
    rw [List.append_assoc]
    nth_rewrite 1 [← heq]
    rw [List.take_append_drop, List.take_append_drop]
  · rintro ⟨u, v, huv⟩
    refine ⟨u.length, ?_, ?_⟩
    · rw [List.mem_range]
      have hlen := congrArg List.length huv
      simp only [List.length_append] at hlen
      omega
    · rw [beq_iff_eq, ← huv, List.append_assoc, List.drop_left, List.take_left]

/-- C8: for a nonempty configured symbol the filter counts a key iff the
all-symbols flag is set or the symbol occurs as a substring of the key,
and on the synthetic listing DPZ/1, AAPL/1, DPZ/2 the DPZ predicate
finds 2 keys while the match-all predicate finds 3. -/
theorem c8_predicate_correct (k s : String) (a : Bool) (hs : s ≠ "") :
    keyMatches a (some s) k = (a || strContains k s) ∧
    keyMatches true (some s) k = true ∧
    delete_objects_from_bucket envSynthetic (some "DPZ") false false = (2, 2) ∧
    delete_objects_from_bucket envSynthetic none true false = (3, 3) := by
  refine ⟨?_, rfl, by decide, by decide⟩
  unfold keyMatches
  have hbeq : (s == "") = false := by
    simpa using hs
  simp [hbeq]

/-- Witness for C8 at a concrete key and symbol. -/
theorem c8_predicate_correct_witness :
    keyMatches false (some "DPZ") "AAPL/1" = (false || strContains "AAPL/1" "DPZ") ∧
    delete_objects_from_bucket envSynthetic (some "DPZ") false false = (2, 2) := by
  have h := c8_predicate_correct "AAPL/1" "DPZ" false (by decide)
  exact ⟨h.1, h.2.2.1⟩

/-- C9 is false as stated: with an empty bucket list the orchestrator
performs no validation and does not fail fast; it submits no task and
completes normally with the all-zero summary. -/
theorem c9_no_fail_fast_counterexample :
    process_all_buckets [] none false false = (0, 0) := rfl

/-- C9 (amended): the code validates no configuration; an empty bucket
list makes the orchestrator return the normal summary (0, 0) rather
than a configuration error, and the only concurrency limit that exists
is the hard-coded positive constant MAX_CONCURRENCY = 8, so no
invalid-concurrency path exists in the code itself. -/
theorem c9_no_config_validation (symbol : Option String) (a d : Bool) :
    process_all_buckets [] symbol a d = (0, 0) ∧ 0 < MAX_CONCURRENCY :=
  ⟨rfl, by decide⟩

/-- C10: with the all-symbols flag off and the symbol None or the empty
string, the condition of line 67 is falsy before the containment test,
so no key matches: the run returns (0, 0) with zero delete-batch calls,
although the empty string is a substring of every key. -/
theorem c10_falsy_symbol_matches_nothing (env : S3Env) (d : Bool)
    (symbol : Option String) (hs : symbol = none ∨ symbol = some "") :
    delete_objects_from_bucket env symbol false d = (0, 0) ∧
    (runTrace env symbol false d).calls = [] ∧
    strContains "AAPL/1" "" = true ∧
    keyMatches false (some "") "AAPL/1" = false := by
  have hkm : ∀ k, keyMatches false symbol k = false := by
    intro k
    rcases hs with rfl | rfl
    · rfl
    · rfl
  have hall : ∀ p ∈ env.pages, (pageContents p).filter (keyMatches false symbol) = [] := by
    intro p _
    rw [List.filter_eq_nil_iff]
    intro k _
    simp [hkm k]
  have hu := pagesLoop_unmatched env.deleteObjects symbol false d env.pages hall
  refine ⟨?_, ?_, by decide, by decide⟩
  · cases henv : env.pages.any isListingErr with
    | false => simp [delete_objects_from_bucket, runTrace, hu, henv]
    | true => simp [delete_objects_from_bucket, runTrace, hu, henv]
  · simp [runTrace, hu]

/-- Witness for C10: the empty symbol over the synthetic listing finds
and deletes nothing even though every key contains the empty string. -/
theorem c10_falsy_symbol_matches_nothing_witness :
    delete_objects_from_bucket envSynthetic (some "") false false = (0, 0) ∧
    (runTrace envSynthetic (some "") false false).calls = [] ∧
    strContains "AAPL/1" "" = true := by
  have h := c10_falsy_symbol_matches_nothing envSynthetic false (some "") (Or.inr rfl)
  exact ⟨h.1, h.2.1, h.2.2.1⟩
